import Mathlib

/-!
Shallow embedding of the Cinder-LeapSdk adapter (src/Cinder-LeapSdk.h).
The header declares the value types `Finger`, `Hand`, `Frame`, the `Listener`
bridge and the `Device` facade; only `Device::addCallback` has its body in the
header (lines 184-190), so it is translated from source, while the bodies that
live in the missing `.cpp` (accessors, `Listener::onFrame`, `Device::update`,
`Device::removeCallback`) are modelled from the spec as marked below.
-/

namespace LeapSdk

/-- ci::Vec3f, an opaque 3-component vector. The verified claims only involve
the `zero()` value, so the float components are modelled exactly. -/
structure Vec3f where
  x : Int
  y : Int
  z : Int
deriving DecidableEq

def Vec3f.zero : Vec3f := ⟨0, 0, 0⟩

/-- LeapSdk::Finger, members in header order (lines 72-77); the float scalars
are modelled exactly since only the 0.0f defaults occur in the claims. -/
structure Finger where
  mDirection : Vec3f
  mIsTool : Bool
  mLength : Int
  mPosition : Vec3f
  mVelocity : Vec3f
  mWidth : Int
deriving DecidableEq

/-- Finger constructor, parameters in the order of header lines 68-70. -/
def Finger.ctor (position direction velocity : Vec3f) (length width : Int)
    (tool : Bool) : Finger :=
  { mDirection := direction, mIsTool := tool, mLength := length,
    mPosition := position, mVelocity := velocity, mWidth := width }

/-- std::map<int32_t, Finger> as an association list keyed by the finger id. -/
abbrev FingerMap := List (Int × Finger)

/-- LeapSdk::Hand, members in header order (lines 110-116). -/
structure Hand where
  mBallPosition : Vec3f
  mBallRadius : Int
  mDirection : Vec3f
  mFingers : FingerMap
  mNormal : Vec3f
  mPosition : Vec3f
  mVelocity : Vec3f
deriving DecidableEq

/-- Hand constructor, parameters in the order of header lines 105-108. -/
def Hand.ctor (fingerMap : FingerMap)
    (position direction velocity normal ballPosition : Vec3f)
    (ballRadius : Int) : Hand :=
  { mBallPosition := ballPosition, mBallRadius := ballRadius,
    mDirection := direction, mFingers := fingerMap, mNormal := normal,
    mPosition := position, mVelocity := velocity }

/-- std::map<int32_t, Hand> as an association list keyed by the hand id. -/
abbrev HandMap := List (Int × Hand)

/-- LeapSdk::Frame, members in header order (lines 137-139). -/
structure Frame where
  mHands : HandMap
  mId : Int
  mTimestamp : Int
deriving DecidableEq

/-- Frame constructor, parameters in the order of header line 136. -/
def Frame.ctor (handMap : HandMap) (id timestamp : Int) : Frame :=
  { mHands := handMap, mId := id, mTimestamp := timestamp }

/-- Modelled from the spec: Frame::getHands (body in the missing .cpp) returns
the map of hands. -/
def Frame.getHands (f : Frame) : HandMap := f.mHands

/-- Modelled from the spec: Frame::getId (body in the missing .cpp) returns
the frame id. -/
def Frame.getId (f : Frame) : Int := f.mId

/-- Modelled from the spec: Frame::getTimestamp (body in the missing .cpp)
returns the time stamp. -/
def Frame.getTimestamp (f : Frame) : Int := f.mTimestamp

/-- Modelled from the spec: Hand::getFingers (body in the missing .cpp)
returns the map of fingers. -/
def Hand.getFingers (h : Hand) : FingerMap := h.mFingers

/-- Modelled from the spec: Finger::getPosition (body in the missing .cpp)
returns the position vector. -/
def Finger.getPosition (f : Finger) : Vec3f := f.mPosition

section CallbackMap

variable {V : Type}

/-- std::map<uint32_t, V> as a list of key-value pairs with strictly
increasing keys; `mapInsert` is std::map::insert, which keeps the existing
entry when the key is already present. -/
def mapInsert (k : Nat) (v : V) : List (Nat × V) → List (Nat × V)
  | [] => [(k, v)]
  | p :: rest =>
    if k < p.1 then (k, v) :: p :: rest
    else if k = p.1 then p :: rest
    else p :: mapInsert k v rest

/-- std::map::erase by key: removes the entry with that key, if present. -/
def mapErase (k : Nat) : List (Nat × V) → List (Nat × V)
  | [] => []
  | p :: rest => if p.1 = k then rest else p :: mapErase k rest

/-- The keys of the map, in storage order. -/
def mapKeys (m : List (Nat × V)) : List Nat := m.map Prod.fst

/-- Strictly increasing keys: the representation invariant of std::map. -/
def sortedKeys : List (Nat × V) → Bool
  | [] => true
  | [_] => true
  | p :: q :: rest => decide (p.1 < q.1) && sortedKeys (q :: rest)

/-- mCallbacks.rbegin()->first: the key of the last stored entry (the map is
key-ordered, so the greatest key); only consulted on a nonempty map. -/
def rbeginKey (m : List (Nat × V)) : Nat := (m.getLast?.map Prod.fst).getD 0

/-- Device::addCallback (header lines 184-190): the next handle is 0 on an
empty registry and otherwise rbegin()->first + 1 in uint32_t arithmetic; the
pair is inserted with std::map::insert and the handle is returned. -/
def addCallback (cb : V) (m : List (Nat × V)) : Nat × List (Nat × V) :=
  let id := if m.isEmpty then 0 else (rbeginKey m + 1) % 2 ^ 32
  (id, mapInsert id cb m)

/-- Modelled from the spec: Device::removeCallback (body in the missing .cpp)
disconnects and erases the subscriber with that handle; an unknown handle is
silently ignored. -/
def removeCallback (id : Nat) (m : List (Nat × V)) : List (Nat × V) :=
  mapErase id m

end CallbackMap

/-- The state shared by a Device and its Listener: the buffered frame and
new-frame flag (header lines 158-160), the advisory status flags (155-156),
and the callback registry (line 200) with opaque subscriber tokens. -/
structure DeviceState where
  mFrame : Frame
  mNewFrame : Bool
  mConnected : Bool
  mInitialized : Bool
  mCallbacks : List (Nat × Nat)
deriving DecidableEq

/-- Modelled from the spec: Listener::onFrame (body in the missing .cpp)
builds a Frame from the SDK sample and, under the mutex, replaces the stored
frame and sets the new-frame flag. -/
def onFrame (f : Frame) (s : DeviceState) : DeviceState :=
  { s with mFrame := f, mNewFrame := true }

/-- Modelled from the spec: Device::update (body in the missing .cpp) takes
the mutex; when the new-frame flag is set it copies the frame out, clears the
flag, releases the mutex and invokes every registered callback with the copy.
The second component records the invocations as (handle, delivered frame)
events. -/
def update (s : DeviceState) : DeviceState × List (Nat × Frame) :=
  if s.mNewFrame then
    ({ s with mNewFrame := false }, s.mCallbacks.map (fun p => (p.1, s.mFrame)))
  else (s, [])

/-- Device::addCallback lifted to the device state. -/
def addCallbackD (cb : Nat) (s : DeviceState) : Nat × DeviceState :=
  let r := addCallback cb s.mCallbacks
  (r.1, { s with mCallbacks := r.2 })

/-- Device::removeCallback lifted to the device state. -/
def removeCallbackD (id : Nat) (s : DeviceState) : DeviceState :=
  { s with mCallbacks := removeCallback id s.mCallbacks }

/-- Modelled from the spec: the onFrame translation (in the missing .cpp)
fills each Finger field from the SDK data when supplied and otherwise leaves
the constructor default of header lines 68-70; no error is signaled. -/
def translateFinger (position direction velocity : Option Vec3f)
    (length width : Option Int) (tool : Option Bool) : Finger :=
  Finger.ctor (position.getD Vec3f.zero) (direction.getD Vec3f.zero)
    (velocity.getD Vec3f.zero) (length.getD 0) (width.getD 0) (tool.getD false)

/-- Modelled from the spec: the onFrame translation (in the missing .cpp)
fills each Hand field from the SDK data when supplied and otherwise leaves
the constructor default of header lines 105-108; no error is signaled. -/
def translateHand (fingerMap : Option FingerMap)
    (position direction velocity normal ballPosition : Option Vec3f)
    (ballRadius : Option Int) : Hand :=
  Hand.ctor (fingerMap.getD []) (position.getD Vec3f.zero)
    (direction.getD Vec3f.zero) (velocity.getD Vec3f.zero)
    (normal.getD Vec3f.zero) (ballPosition.getD Vec3f.zero)
    (ballRadius.getD 0)

/-- Modelled from the spec: the onFrame translation (in the missing .cpp)
fills each Frame field from the SDK data when supplied and otherwise leaves
the constructor default of header line 136; no error is signaled. -/
def translateFrame (handMap : Option HandMap) (id timestamp : Option Int) :
    Frame :=
  Frame.ctor (handMap.getD []) (id.getD 0) (timestamp.getD 0)

/-- A concrete frame used to instantiate the theorems below. -/
def fEx : Frame := Frame.ctor [] 7 100

/-- A concrete device state with two registered subscribers and no pending
frame, used to instantiate the theorems below. -/
def sEx : DeviceState :=
  { mFrame := Frame.ctor [] 0 0, mNewFrame := false, mConnected := true,
    mInitialized := true, mCallbacks := [(0, 10), (1, 11)] }

/-- A concrete two-entry registry used to instantiate the theorems below. -/
def mEx : List (Nat × Nat) := [(0, 5), (3, 6)]

lemma sortedKeys_tail {V : Type} {p : Nat × V} {m : List (Nat × V)}
    (h : sortedKeys (p :: m) = true) : sortedKeys m = true := by
  cases m with
  | nil => rfl
  | cons q rest =>
    simp only [sortedKeys, Bool.and_eq_true, decide_eq_true_eq] at h
    exact h.2

lemma sortedKeys_head_lt {V : Type} {p : Nat × V} {m : List (Nat × V)}
    (h : sortedKeys (p :: m) = true) : ∀ q ∈ m, p.1 < q.1 := by
  induction m generalizing p with
  | nil => intro q hq; cases hq
  | cons r rest ih =>
    intro q hq
    simp only [sortedKeys, Bool.and_eq_true, decide_eq_true_eq] at h
    rcases List.mem_cons.mp hq with rfl | hq
    · exact h.1
    · exact h.1.trans (ih h.2 q hq)

lemma mapKeys_nodup {V : Type} {m : List (Nat × V)}
    (h : sortedKeys m = true) : (mapKeys m).Nodup := by
  induction m with
  | nil => simp [mapKeys]
  | cons p rest ih =>
    simp only [mapKeys, List.map_cons, List.nodup_cons]
    refine ⟨fun hmem => ?_, by simpa [mapKeys] using ih (sortedKeys_tail h)⟩
    rcases List.mem_map.mp hmem with ⟨q, hq, hq1⟩
    have := sortedKeys_head_lt h q hq
    omega

lemma rbeginKey_cons_cons {V : Type} (q r : Nat × V) (rest : List (Nat × V)) :
    rbeginKey (q :: r :: rest) = rbeginKey (r :: rest) := by
  simp [rbeginKey, List.getLast?_cons_cons]

lemma le_rbeginKey {V : Type} {m : List (Nat × V)}
    (h : sortedKeys m = true) : ∀ p ∈ m, p.1 ≤ rbeginKey m := by
  induction m with
  | nil => intro p hp; cases hp
  | cons q rest ih =>
    intro p hp
    cases rest with
    | nil =>
      rcases List.mem_singleton.mp hp with rfl
      simp [rbeginKey]
    | cons r rest2 =>
      rw [rbeginKey_cons_cons]
      rcases List.mem_cons.mp hp with rfl | hp
      · have h1 := sortedKeys_head_lt h r (List.mem_cons_self r rest2)
        have h2 := ih (sortedKeys_tail h) r (List.mem_cons_self r rest2)
        omega
      · exact ih (sortedKeys_tail h) p hp

lemma rbeginKey_mem {V : Type} {m : List (Nat × V)} (h : m ≠ []) :
    rbeginKey m ∈ mapKeys m := by
  induction m with
  | nil => exact absurd rfl h
  | cons q rest ih =>
    cases rest with
    | nil => simp [rbeginKey, mapKeys]
    | cons r rest2 =>
      rw [rbeginKey_cons_cons]
      simp only [mapKeys, List.map_cons, List.mem_cons]
      right
      simpa [mapKeys] using ih (by simp)

lemma mapInsert_append {V : Type} {m : List (Nat × V)} {k : Nat} (v : V)
    (h : ∀ p ∈ m, p.1 < k) : mapInsert k v m = m ++ [(k, v)] := by
  induction m with
  | nil => rfl
  | cons p rest ih =>
    have hp : p.1 < k := h p (List.mem_cons_self p rest)
    simp only [mapInsert]
    rw [if_neg (by omega), if_neg (by omega)]
    rw [ih (fun q hq => h q (List.mem_cons_of_mem _ hq))]
    simp

lemma mapErase_of_not_mem {V : Type} {m : List (Nat × V)} {k : Nat}
    (h : k ∉ mapKeys m) : mapErase k m = m := by
  induction m with
  | nil => rfl
  | cons p rest ih =>
    simp only [mapKeys, List.map_cons, List.mem_cons] at h
    push_neg at h
    simp only [mapErase]
    rw [if_neg fun he => h.1 he.symm]
    rw [ih (by simpa [mapKeys] using h.2)]

lemma mapErase_mapInsert_of_not_mem {V : Type} {m : List (Nat × V)} {k : Nat}
    (v : V) (h : k ∉ mapKeys m) : mapErase k (mapInsert k v m) = m := by
  induction m with
  | nil => simp [mapInsert, mapErase]
  | cons p rest ih =>
    simp only [mapKeys, List.map_cons, List.mem_cons] at h
    push_neg at h
    by_cases hlt : k < p.1
    · simp [mapInsert, hlt, mapErase]
    · simp only [mapInsert, if_neg hlt, if_neg h.1, mapErase]
      rw [if_neg fun he => h.1 he.symm]
      rw [ih (by simpa [mapKeys] using h.2)]

lemma mapInsert_of_mem_sorted {V : Type} {m : List (Nat × V)} {k : Nat}
    (v : V) (hs : sortedKeys m = true) (h : k ∈ mapKeys m) :
    mapInsert k v m = m := by
  induction m with
  | nil => simp [mapKeys] at h
  | cons p rest ih =>
    simp only [mapKeys, List.map_cons, List.mem_cons] at h
    by_cases heq : k = p.1
    · simp [mapInsert, heq]
    · rcases h with h | h
      · exact absurd h heq
      · rcases List.mem_map.mp h with ⟨q, hq, hq1⟩
        have hlt := sortedKeys_head_lt hs q hq
        have hnlt : ¬ k < p.1 := by omega
        simp only [mapInsert, if_neg hnlt, if_neg heq]
        rw [ih (sortedKeys_tail hs) (by simpa [mapKeys] using h)]

lemma not_mem_keys_mapErase {V : Type} {m : List (Nat × V)} {k : Nat}
    (hnd : (mapKeys m).Nodup) : k ∉ mapKeys (mapErase k m) := by
  induction m with
  | nil => simp [mapErase, mapKeys]
  | cons p rest ih =>
    simp only [mapKeys, List.map_cons, List.nodup_cons] at hnd
    by_cases he : p.1 = k
    · simp only [mapErase, if_pos he]
      subst he
      exact fun hc => hnd.1 (by simpa [mapKeys] using hc)
    · simp only [mapErase, if_neg he, mapKeys, List.map_cons, List.mem_cons]
      push_neg
      exact ⟨fun hc => he hc.symm, by simpa [mapKeys] using ih (by simpa [mapKeys] using hnd.2)⟩

lemma addCallback_snd {V : Type} (cb : V) (m : List (Nat × V)) :
    (addCallback cb m).2 = mapInsert (addCallback cb m).1 cb m := rfl

lemma addCallback_id_gt {m : List (Nat × Nat)} (cb : Nat)
    (hs : sortedKeys m = true) (hb : ∀ p ∈ m, p.1 < 2 ^ 32 - 1) :
    ∀ p ∈ m, p.1 < (addCallback cb m).1 := by
  intro p hp
  have hne : m ≠ [] := by intro h; subst h; cases hp
  have hie : m.isEmpty = false := by simpa [List.isEmpty_iff] using hne
  rcases (by simpa [mapKeys] using rbeginKey_mem hne :
      ∃ x, (rbeginKey m, x) ∈ m) with ⟨x, hq⟩
  have hqb := hb (rbeginKey m, x) hq
  have hle := le_rbeginKey hs p hp
  show p.1 < (if m.isEmpty then 0 else (rbeginKey m + 1) % 2 ^ 32)
  rw [hie]
  simp only [Bool.false_eq_true, if_false]
  rw [Nat.mod_eq_of_lt (by omega)]
  omega

lemma addCallback_id_eq {m : List (Nat × Nat)} (cb : Nat) (hne : m ≠ [])
    (hb : ∀ p ∈ m, p.1 < 2 ^ 32 - 1) :
    (addCallback cb m).1 = rbeginKey m + 1 := by
  have hie : m.isEmpty = false := by simpa [List.isEmpty_iff] using hne
  rcases (by simpa [mapKeys] using rbeginKey_mem hne :
      ∃ x, (rbeginKey m, x) ∈ m) with ⟨x, hq⟩
  have hqb := hb (rbeginKey m, x) hq
  show (if m.isEmpty then 0 else (rbeginKey m + 1) % 2 ^ 32) = rbeginKey m + 1
  rw [hie]
  simp only [Bool.false_eq_true, if_false]
  exact Nat.mod_eq_of_lt (by omega)

lemma foldl_onFrame_mFrame (fs : List Frame) (s : DeviceState) :
    (fs.foldl (fun st g => onFrame g st) s).mFrame = fs.getLastD s.mFrame := by
  induction fs generalizing s with
  | nil => rfl
  | cons f rest ih =>
    simp only [List.foldl_cons, List.getLastD_cons]
    rw [ih]
    rfl

lemma foldl_onFrame_mCallbacks (fs : List Frame) (s : DeviceState) :
    (fs.foldl (fun st g => onFrame g st) s).mCallbacks = s.mCallbacks := by
  induction fs generalizing s with
  | nil => rfl
  | cons f rest ih =>
    simp only [List.foldl_cons]
    rw [ih]
    rfl

lemma foldl_onFrame_mNewFrame (f : Frame) (fs : List Frame) (s : DeviceState) :
    ((f :: fs).foldl (fun st g => onFrame g st) s).mNewFrame = true := by
  induction fs generalizing f s with
  | nil => rfl
  | cons g rest ih =>
    simp only [List.foldl_cons]
    exact ih g (onFrame f s)

/-- C1: after exactly one onFrame since the last update (the new-frame flag is
set and the buffered frame is the one that onFrame built), update() invokes
every registered callback exactly once, each invocation carrying that buffered
frame. -/
theorem update_after_one_onFrame_delivers_each_once (s0 : DeviceState)
    (f : Frame) (hs : sortedKeys s0.mCallbacks = true) :
    (update (onFrame f s0)).2 = s0.mCallbacks.map (fun p => (p.1, f)) ∧
    ∀ p ∈ s0.mCallbacks,
      ((update (onFrame f s0)).2.map Prod.fst).count p.1 = 1 := by
  have hev : (update (onFrame f s0)).2
      = s0.mCallbacks.map (fun p => (p.1, f)) := by
    simp [update, onFrame]
  refine ⟨hev, fun p hp => ?_⟩
  rw [hev]
  have hk : (s0.mCallbacks.map (fun p => (p.1, f))).map Prod.fst
      = mapKeys s0.mCallbacks := by
    simp [mapKeys, List.map_map]
  rw [hk]
  exact List.count_eq_one_of_mem (mapKeys_nodup hs)
    (by simpa [mapKeys] using List.mem_map_of_mem Prod.fst hp)

/-- Witness for C1 on a concrete state with two subscribers. -/
theorem update_after_one_onFrame_delivers_each_once_witness :
    (update (onFrame fEx sEx)).2 = sEx.mCallbacks.map (fun p => (p.1, fEx)) ∧
    ∀ p ∈ sEx.mCallbacks,
      ((update (onFrame fEx sEx)).2.map Prod.fst).count p.1 = 1 :=
  update_after_one_onFrame_delivers_each_once sEx fEx (by decide)

/-- C2: when the new-frame flag is not set, update() invokes no subscriber
callback and leaves the whole device state, the buffered frame and the flag
included, unchanged. -/
theorem update_no_new_frame_no_calls (s : DeviceState)
    (h : s.mNewFrame = false) : update s = (s, []) := by
  simp [update, h]

/-- Witness for C2 on a concrete state without a pending frame. -/
theorem update_no_new_frame_no_calls_witness : update sEx = (sEx, []) :=
  update_no_new_frame_no_calls sEx rfl

/-- C3: each onFrame overwrites the previously buffered frame (two consecutive
onFrame deliveries leave the same state as the second alone, so at most one
frame is ever buffered), and after a run of two or more onFrame deliveries the
next update() delivers to the subscribers exactly the frame built by the last
one. -/
theorem onFrame_coalesces_update_delivers_last (s0 : DeviceState)
    (f1 f2 : Frame) (rest : List Frame) :
    (∀ s, onFrame f2 (onFrame f1 s) = onFrame f2 s) ∧
    (update ((f1 :: f2 :: rest).foldl (fun st g => onFrame g st) s0)).2
      = s0.mCallbacks.map (fun p => (p.1, (f1 :: f2 :: rest).getLastD f1)) := by
  constructor
  · intro s; rfl
  · have hflag := foldl_onFrame_mNewFrame f1 (f2 :: rest) s0
    have hcb := foldl_onFrame_mCallbacks (f1 :: f2 :: rest) s0
    have hfr := foldl_onFrame_mFrame (f1 :: f2 :: rest) s0
    simp only [update, hflag, if_true]
    rw [hcb, hfr]
    have hd : (f1 :: f2 :: rest).getLastD s0.mFrame
        = (f1 :: f2 :: rest).getLastD f1 := by
      simp only [List.getLastD_cons]
    rw [hd]

/-- C4 fails as stated: on a registry holding the single handle 2^32 - 1 (a
value the uint32_t key type admits), addCallback wraps around to 0 instead of
returning max + 1, and on a registry holding the handles 0 and 2^32 - 1 the
returned handle 0 is already registered, hence not unique. -/
theorem addCallback_wrap_counterexample :
    (addCallback 7 [((2 ^ 32 - 1 : Nat), 5)]).1 ≠ (2 ^ 32 - 1) + 1 ∧
    (addCallback 9 [((0 : Nat), 5), (2 ^ 32 - 1, 6)]).1 = 0 ∧
    0 ∈ mapKeys [((0 : Nat), 5), (2 ^ 32 - 1, 6)] := by
  decide

/-- C4 amended: addCallback returns 0 on the empty registry and otherwise the
greatest current handle plus one reduced mod 2^32 (uint32_t arithmetic);
whenever every registered handle is below 2^32 - 1 the wrap cannot occur, so
the returned handle is rbegin()->first + 1, exceeds every registered handle,
and is therefore unique among the registered handles. -/
theorem addCallback_returns_next_free_handle (m : List (Nat × Nat)) (cb : Nat)
    (hs : sortedKeys m = true) (hb : ∀ p ∈ m, p.1 < 2 ^ 32 - 1) :
    (m = [] → (addCallback cb m).1 = 0) ∧
    (m ≠ [] → (addCallback cb m).1 = rbeginKey m + 1 ∧
      ∀ p ∈ m, p.1 < (addCallback cb m).1) ∧
    (addCallback cb m).1 ∉ mapKeys m := by
  refine ⟨fun h => by subst h; rfl, fun hne =>
    ⟨addCallback_id_eq cb hne hb, addCallback_id_gt cb hs hb⟩, fun hmem => ?_⟩
  rcases (by simpa [mapKeys] using hmem :
      ∃ x, ((addCallback cb m).1, x) ∈ m) with ⟨x, hq⟩
  have := addCallback_id_gt cb hs hb ((addCallback cb m).1, x) hq
  omega

/-- Witness for the amended C4 on a concrete two-entry registry. -/
theorem addCallback_returns_next_free_handle_witness :
    (mEx = [] → (addCallback 9 mEx).1 = 0) ∧
    (mEx ≠ [] → (addCallback 9 mEx).1 = rbeginKey mEx + 1 ∧
      ∀ p ∈ mEx, p.1 < (addCallback 9 mEx).1) ∧
    (addCallback 9 mEx).1 ∉ mapKeys mEx :=
  addCallback_returns_next_free_handle mEx 9 (by decide) (by decide)

/-- C5: starting from the empty registry, add issues 0 then 1; after removing
handle 1, the next addCallback returns 1 again, a handle the sequence already
issued earlier. -/
theorem addCallback_reissues_handle_after_removal :
    (addCallback 11 (addCallback 10 ([] : List (Nat × Nat))).2).1 = 1 ∧
    (addCallback 12 (removeCallback 1
      (addCallback 11 (addCallback 10 ([] : List (Nat × Nat))).2).2)).1 = 1 := by
  decide

/-- C6: removing a handle that is not registered is a silent no-op: the
registry and every other component of the device state are unchanged. -/
theorem removeCallback_unknown_handle_noop (s : DeviceState) (id : Nat)
    (h : id ∉ mapKeys s.mCallbacks) : removeCallbackD id s = s := by
  simp only [removeCallbackD, removeCallback]
  rw [mapErase_of_not_mem h]

/-- Witness for C6 on a concrete state and an unregistered handle. -/
theorem removeCallback_unknown_handle_noop_witness :
    removeCallbackD 5 sEx = sEx :=
  removeCallback_unknown_handle_noop sEx 5 (by decide)

/-- C7: addCallback immediately followed by removeCallback of the handle it
returned leaves a registry in which that handle is absent, so a subsequent
update() — also one for which a new frame is available — emits no invocation
for that handle. -/
theorem add_then_remove_is_never_invoked (s : DeviceState) (cb : Nat)
    (f : Frame) (hs : sortedKeys s.mCallbacks = true) :
    (addCallbackD cb s).1 ∉ mapKeys
      (removeCallbackD (addCallbackD cb s).1 (addCallbackD cb s).2).mCallbacks ∧
    ∀ e ∈ (update (onFrame f
        (removeCallbackD (addCallbackD cb s).1 (addCallbackD cb s).2))).2,
      e.1 ≠ (addCallbackD cb s).1 := by
  have hkey : (addCallbackD cb s).1 ∉ mapKeys
      (removeCallbackD (addCallbackD cb s).1 (addCallbackD cb s).2).mCallbacks := by
    show (addCallback cb s.mCallbacks).1 ∉ mapKeys
      (mapErase (addCallback cb s.mCallbacks).1 (addCallback cb s.mCallbacks).2)
    rw [addCallback_snd]
    by_cases hmem : (addCallback cb s.mCallbacks).1 ∈ mapKeys s.mCallbacks
    · rw [mapInsert_of_mem_sorted cb hs hmem]
      exact not_mem_keys_mapErase (mapKeys_nodup hs)
    · rw [mapErase_mapInsert_of_not_mem cb hmem]
      exact hmem
  refine ⟨hkey, fun e he => ?_⟩
  have hev : (update (onFrame f
      (removeCallbackD (addCallbackD cb s).1 (addCallbackD cb s).2))).2
      = (removeCallbackD (addCallbackD cb s).1
          (addCallbackD cb s).2).mCallbacks.map (fun p => (p.1, f)) := by
    simp [update, onFrame]
  rw [hev] at he
  rcases List.mem_map.mp he with ⟨q, hq, rfl⟩
  intro hc
  have hc2 : q.1 = (addCallbackD cb s).1 := hc
  have hm : q.1 ∈ mapKeys (removeCallbackD (addCallbackD cb s).1
      (addCallbackD cb s).2).mCallbacks :=
    List.mem_map_of_mem Prod.fst hq
  rw [hc2] at hm
  exact hkey hm

/-- Witness for C7 on a concrete state with two subscribers. -/
theorem add_then_remove_is_never_invoked_witness :
    (addCallbackD 12 sEx).1 ∉ mapKeys
      (removeCallbackD (addCallbackD 12 sEx).1 (addCallbackD 12 sEx).2).mCallbacks ∧
    ∀ e ∈ (update (onFrame fEx
        (removeCallbackD (addCallbackD 12 sEx).1 (addCallbackD 12 sEx).2))).2,
      e.1 ≠ (addCallbackD 12 sEx).1 :=
  add_then_remove_is_never_invoked sEx 12 fEx (by decide)

/-- C8: a Frame is never mutated by the public interface: update, addCallback
and removeCallback leave the buffered frame untouched, and the accessors of
Frame, Hand and Finger return exactly the construction-time components, so
repeated getHands() calls agree until an onFrame replaces the frame. -/
theorem frame_immutable_under_interface (s : DeviceState) (id cb : Nat) :
    (update s).1.mFrame = s.mFrame ∧
    (addCallbackD cb s).2.mFrame = s.mFrame ∧
    (removeCallbackD id s).mFrame = s.mFrame ∧
    (∀ hm i t, (Frame.ctor hm i t).getHands = hm) ∧
    (∀ fm p d v n bp br, (Hand.ctor fm p d v n bp br).getFingers = fm) ∧
    (∀ p d v l w t, (Finger.ctor p d v l w t).getPosition = p) := by
  refine ⟨?_, rfl, rfl, fun _ _ _ => rfl, fun _ _ _ _ _ _ _ => rfl,
    fun _ _ _ _ _ _ => rfl⟩
  cases hb : s.mNewFrame <;> simp [update, hb]

/-- C9: translating a sample with every field unsupplied yields the
default-constructed values of the header's constructors: zero vectors and
scalars, false tool flag, empty maps, zero frame id and timestamp; the
translation is total, so no error is signaled. -/
theorem translation_defaults_zeroed :
    (translateFinger none none none none none none).mPosition = Vec3f.zero ∧
    (translateFinger none none none none none none).mDirection = Vec3f.zero ∧
    (translateFinger none none none none none none).mVelocity = Vec3f.zero ∧
    (translateFinger none none none none none none).mLength = 0 ∧
    (translateFinger none none none none none none).mWidth = 0 ∧
    (translateFinger none none none none none none).mIsTool = false ∧
    (translateHand none none none none none none none).mPosition = Vec3f.zero ∧
    (translateHand none none none none none none none).mDirection = Vec3f.zero ∧
    (translateHand none none none none none none none).mVelocity = Vec3f.zero ∧
    (translateHand none none none none none none none).mNormal = Vec3f.zero ∧
    (translateHand none none none none none none none).mBallPosition = Vec3f.zero ∧
    (translateHand none none none none none none none).mBallRadius = 0 ∧
    (translateHand none none none none none none none).mFingers = [] ∧
    (translateFrame none none none).mHands = [] ∧
    (translateFrame none none none).getId = 0 ∧
    (translateFrame none none none).getTimestamp = 0 := by
  decide

/-- C10 fails as stated: on a registry holding the handles 0 and 2^32 - 1 the
returned handle wraps to 0 and collides with an existing key, std::map::insert
keeps the old entry, and the registry does not grow at all. -/
theorem addCallback_collision_counterexample :
    (addCallback 9 [((0 : Nat), 5), (2 ^ 32 - 1, 6)]).2
      = [((0 : Nat), 5), (2 ^ 32 - 1, 6)] := by
  decide

/-- C10 amended: whenever every registered handle is below 2^32 - 1,
addCallback appends exactly one new entry keyed by the returned handle, leaves
every previously registered entry unchanged, and grows the registry by exactly
one; with a registered handle equal to 2^32 - 1 the uint32_t wrap can make the
insert a silent no-op instead. -/
theorem addCallback_appends_fresh_entry (m : List (Nat × Nat)) (cb : Nat)
    (hs : sortedKeys m = true) (hb : ∀ p ∈ m, p.1 < 2 ^ 32 - 1) :
    (addCallback cb m).2 = m ++ [((addCallback cb m).1, cb)] ∧
    ((addCallback cb m).2).length = m.length + 1 := by
  have happ : (addCallback cb m).2 = m ++ [((addCallback cb m).1, cb)] := by
    rw [addCallback_snd]
    exact mapInsert_append cb (addCallback_id_gt cb hs hb)
  exact ⟨happ, by rw [happ]; simp⟩

/-- Witness for the amended C10 on a concrete two-entry registry. -/
theorem addCallback_appends_fresh_entry_witness :
    (addCallback 9 mEx).2 = mEx ++ [((addCallback 9 mEx).1, 9)] ∧
    ((addCallback 9 mEx).2).length = mEx.length + 1 :=
  addCallback_appends_fresh_entry mEx 9 (by decide) (by decide)

end LeapSdk
